import Mathlib

/-!
# Verification of the USYD Web Crawler and RAG ingestion pipeline

Shallow embedding of the core ingestion/indexing/search code of the
repository (`src/services/vector_store.py`, `src/services/scraper.py`)
together with proofs of the specification claims about it.

Conventions used throughout:
* Python lists become Lean `List`s; Python dict-shaped records become
  structures; machine floats never influence the control flow of any
  claim, so embedding vectors are kept as an abstract type parameter `V`.
* Fallible external calls (embedding provider, search backend, the file
  system) are oracles passed in as function parameters; `Option`/`Except`
  model raised exceptions.
* Loops that Python bounds by a runtime quantity are written with an
  explicit fuel argument so the definitions stay executable by the
  kernel; the fuel chosen at the top level dominates the number of
  iterations of the Python loop, and every safety theorem below is
  proved for all fuels.
-/

namespace USYDRag

/-! ## Chunker (`VectorStoreService._chunk_text`)

```python
def _chunk_text(self, text, chunk_size=1000, overlap=200):
    tokens = self.tokenizer.encode(text)
    chunks = []
    for i in range(0, len(tokens), chunk_size - overlap):
        chunk_tokens = tokens[i:i + chunk_size]
        chunk_text = self.tokenizer.decode(chunk_tokens)
        chunks.append(chunk_text)
        if i + chunk_size >= len(tokens):
            break
    return chunks
```

The loop is embedded at the token level.  `i` walks the positions
`0, step, 2*step, ...` (`step = chunk_size - overlap`); on the claim's
domain `chunk_size > overlap ≥ 0` the step is positive, so the loop
performs at most `tokens.length` iterations — that quantity is used as
fuel.  (For `chunk_size ≤ overlap` Python's `range` raises or yields no
iterations; that regime is outside every claim below.) -/

/-- One Python loop iteration of `_chunk_text`: slice
`tokens[i : i+chunkSize]`, stop after the slice whose end reaches the
end of the token list, otherwise advance `i` by `step`. -/
def chunkSlicesGo (tokens : List Nat) (chunkSize step : Nat) :
    Nat → Nat → List (List Nat)
  | 0, _ => []
  | fuel + 1, i =>
    if i < tokens.length then
      let chunk := (tokens.drop i).take chunkSize
      if tokens.length ≤ i + chunkSize then [chunk]
      else chunk :: chunkSlicesGo tokens chunkSize step fuel (i + step)
    else []

/-- `_chunk_text` at the token level: the list of token slices the
Python loop emits. -/
def chunkTextTokens (tokens : List Nat) (chunkSize overlap : Nat) :
    List (List Nat) :=
  chunkSlicesGo tokens chunkSize (chunkSize - overlap) tokens.length 0

/-- `_chunk_text` at the string level, parametrised by the tokenizer
(`tiktoken` `encode`/`decode` in the source). -/
def chunkTextWith (encode : String → List Nat) (decode : List Nat → String)
    (text : String) (chunkSize overlap : Nat) : List String :=
  (chunkTextTokens (encode text) chunkSize overlap).map decode

/-- A concrete lossless tokenizer (one token per character).  Any
tokenizer whose `decode` inverts `encode` — `tiktoken`'s `cl100k_base`
included — sends a nonempty string to a nonempty token list, which is
what the whitespace counterexample below relies on. -/
def charEncode (s : String) : List Nat := s.data.map Char.toNat

/-- Inverse of `charEncode`. -/
def charDecode (ts : List Nat) : String := String.mk (ts.map Char.ofNat)

/-- Concatenating the chunks "modulo the declared overlap": keep the
first chunk whole and drop the first `overlap` tokens of every later
chunk. -/
def reassemble (overlap : Nat) : List (List Nat) → List Nat
  | [] => []
  | c :: cs => c ++ (cs.map (List.drop overlap)).flatten

/-! ## Deep crawl (`ScrapingService.scrape_website_deep`)

```python
scraped_urls = set()
to_scrape = [(url, 0)]
results = []
while to_scrape and len(scraped_urls) < max_pages:
    current_url, depth = to_scrape.pop(0)
    if current_url in scraped_urls or depth > max_depth:
        continue
    scraped_urls.add(current_url)
    try:
        result = await crawler.arun(url=current_url)
        if result.success:
            results.append(page_data)
            if depth < max_depth:
                base_domain = urlparse(url).netloc
                for link in result.links.get('internal', []):
                    link_url = urljoin(current_url, link['href'])
                    if urlparse(link_url).netloc == base_domain \
                       and link_url not in scraped_urls:
                        to_scrape.append((link_url, depth + 1))
    except Exception:
        continue
return {'success': True, ..., 'results': results}
```

URLs are an abstract type `U` with decidable equality; `host` embeds
`urlparse(...).netloc` and `resolve` embeds `urljoin`.  The network is a
finite synthetic site graph `web : List (U × Option (CrawlPage U))`:
`none` (or an absent URL) models a fetch that raises or reports
`success = False` — both behave identically in the loop.  The fuel of
`deepCrawlGo` dominates the Python loop's iteration count (every
iteration pops one frontier entry, and at most `1 + maxPages·L` entries
are ever pushed, `L` being the total number of links in the graph); all
claim theorems hold for every fuel. -/

/-- One fetched page: title, extracted content and the hrefs of its
internal links. -/
structure CrawlPage (U : Type) where
  title : String
  content : String
  internalHrefs : List U
deriving DecidableEq

/-- One entry of the returned `results` list. -/
structure PageResult (U : Type) where
  url : U
  title : String
  content : String
  depth : Nat
deriving DecidableEq

/-- The crawl's result envelope, plus an instrumentation field:
`visitLog` records, in order, every `scraped_urls.add(current_url)`
together with the depth at that moment (the `scraped` accumulator of
`deepCrawlGo` always equals `visitLog.map Prod.fst`). -/
structure CrawlOutcome (U : Type) where
  success : Bool
  results : List (PageResult U)
  visitLog : List (U × Nat)
deriving DecidableEq

/-- Fetch a URL against the synthetic site graph: absent URL or a
stored `none` both model a failed/unsuccessful fetch. -/
def fetchWeb {U : Type} [DecidableEq U] (web : List (U × Option (CrawlPage U)))
    (u : U) : Option (CrawlPage U) :=
  match web.find? (fun e => e.1 = u) with
  | none => none
  | some e => e.2

/-- The `while` loop of `scrape_website_deep`. -/
def deepCrawlGo {U H : Type} [DecidableEq U] [DecidableEq H]
    (host : U → H) (resolve : U → U → U)
    (web : List (U × Option (CrawlPage U))) (seed : U)
    (maxDepth maxPages : Nat) :
    Nat → List U → List (U × Nat) → List (PageResult U) → List (U × Nat) →
    CrawlOutcome U
  | 0, _, _, results, log => ⟨true, results, log⟩
  | fuel + 1, scraped, frontier, results, log =>
    match frontier with
    | [] => ⟨true, results, log⟩
    | (u, d) :: rest =>
      if maxPages ≤ scraped.length then ⟨true, results, log⟩
      else if u ∈ scraped ∨ maxDepth < d then
        deepCrawlGo host resolve web seed maxDepth maxPages
          fuel scraped rest results log
      else
        let scraped' := scraped ++ [u]
        let log' := log ++ [(u, d)]
        match fetchWeb web u with
        | none =>
          deepCrawlGo host resolve web seed maxDepth maxPages
            fuel scraped' rest results log'
        | some page =>
          let results' := results ++ [⟨u, page.title, page.content, d⟩]
          let newLinks :=
            if d < maxDepth then
              ((page.internalHrefs.map (resolve u)).filter
                (fun lu => host lu = host seed ∧ lu ∉ scraped')).map
                (fun lu => (lu, d + 1))
            else []
          deepCrawlGo host resolve web seed maxDepth maxPages
            fuel scraped' (rest ++ newLinks) results' log'

/-- Total number of links stored in the site graph (used only to size
the fuel). -/
def totalWebLinks {U : Type} (web : List (U × Option (CrawlPage U))) : Nat :=
  (web.map (fun e => match e.2 with
    | some p => p.internalHrefs.length
    | none => 0)).sum

/-- `scrape_website_deep`: runs the crawl loop from the seed with fuel
that dominates the Python loop's iteration count. -/
def scrapeWebsiteDeep {U H : Type} [DecidableEq U] [DecidableEq H]
    (host : U → H) (resolve : U → U → U)
    (web : List (U × Option (CrawlPage U))) (seed : U)
    (maxDepth maxPages : Nat) : CrawlOutcome U :=
  deepCrawlGo host resolve web seed maxDepth maxPages
    (1 + (1 + maxPages) * (1 + totalWebLinks web)) [] [(seed, 0)] [] []

/-! ## Embedder (`VectorStoreService._generate_embeddings`)

```python
embeddings = []
batch_size = 10
for i in range(0, len(texts), batch_size):
    batch = texts[i:i + batch_size]
    response = self.openai_client.embeddings.create(input=batch, ...)
    batch_embeddings = [item.embedding for item in response.data]
    embeddings.extend(batch_embeddings)
return embeddings
```

An exception from the provider propagates out of the function (the
`except` clause re-raises), modelled by `Option`: `callApi b = none` is
a failed provider call on sub-batch `b`.  Vector values never influence
control flow, so they stay an abstract type `V`. -/

/-- The sub-batches `texts[i:i+10]` for `i in range(0, len(texts), 10)`. -/
def embedBatches (texts : List String) : List (List String) :=
  (List.range ((texts.length + 9) / 10)).map
    (fun k => (texts.drop (10 * k)).take 10)

/-- Sequentially call the provider on each sub-batch, concatenating the
returned vectors; a failure on any sub-batch aborts the whole call. -/
def embedGo {V : Type} (callApi : List String → Option (List V)) :
    List (List String) → Option (List V)
  | [] => some []
  | b :: bs =>
    match callApi b with
    | none => none
    | some vs =>
      match embedGo callApi bs with
      | none => none
      | some rest => some (vs ++ rest)

/-- `_generate_embeddings`. -/
def generateEmbeddings {V : Type} (callApi : List String → Option (List V))
    (texts : List String) : Option (List V) :=
  embedGo callApi (embedBatches texts)

/-! ## Ingestion processing
(`_process_scraped_data_async`, `_load_and_process_scraped_source`,
`_load_and_process_document_source`, `_process_hybrid_data_async`)

The snapshot JSON envelope, the per-record chunk/embed/accumulate loops
and the final status/`document_count` update are embedded below.  The
chunker and embedder are passed in as the functions defined above would
be (`chunkOf` = `_chunk_text` composed with the tokenizer, `embed` =
`_generate_embeddings`, failure = raised exception); `uploadOk` is the
Azure upload oracle: `False` means some `upload_documents` batch raised,
which the code turns into a fatal error.  The relational `UPDATE` that
persists `status`/`document_count` is represented by the returned
`BuildResult`. -/

/-- One raw content record of a scraped snapshot. -/
structure RawRecord where
  url : String
  title : String
  content : String
deriving DecidableEq

/-- `not content or not content.strip()` — true exactly when the
record's body is empty or consists of whitespace only (then
`content.strip()` is falsy), phrased over the character list so the
kernel evaluates it. -/
def blankContent (s : String) : Bool := s.data.all (fun c => c.isWhitespace)

/-- The snapshot's shape: a `results` list (deep/sitemap crawl), a
single-page record (`content` key at top level), or neither. -/
inductive SnapshotBody
  | multi (results : List RawRecord)
  | single (r : RawRecord)
  | neither
deriving DecidableEq

/-- The persisted `scraped_data.json` envelope. -/
structure ScrapedData where
  success : Bool
  body : SnapshotBody
deriving DecidableEq

/-- Normalisation performed by both processing paths: `results` if
present, else `[scraped_data]` if it has `content`, else `[]`. -/
def snapshotResults : ScrapedData → List RawRecord
  | ⟨_, .multi rs⟩ => rs
  | ⟨_, .single r⟩ => [r]
  | ⟨_, .neither⟩ => []

/-- One document uploaded to the search index (the `metadata` field and
the concrete float vector carry no control flow and are abstracted: the
vector keeps its type parameter `V`). -/
structure IndexDoc (V : Type) where
  id : String
  content : String
  title : String
  url : String
  chunk_index : Nat
  source_type : String
  content_vector : V
deriving DecidableEq

/-- Deterministic document id of the single-source path:
`f"{db_id}_{document_count}_{i}"`. -/
def mkDocId (dbId : String) (sourceIndex chunkIndex : Nat) : String :=
  dbId ++ "_" ++ toString sourceIndex ++ "_" ++ toString chunkIndex

/-- The per-record loop of `_process_scraped_data_async`: skip blank
records, chunk, embed (a per-record embedding failure is logged and the
record skipped), then emit one document per chunk; `count` is the
running `document_count`. -/
def processScrapedRecordsGo {V : Type} (chunkOf : String → List String)
    (embed : List String → Option (List V)) (dbId : String) :
    List RawRecord → Nat → List (IndexDoc V) × Nat
  | [], count => ([], count)
  | r :: rs, count =>
    if blankContent r.content then
      processScrapedRecordsGo chunkOf embed dbId rs count
    else
      let chunks := chunkOf r.content
      match embed chunks with
      | none => processScrapedRecordsGo chunkOf embed dbId rs count
      | some embs =>
        let docs := (chunks.zip embs).enum.map
          (fun p => ⟨mkDocId dbId count p.1, p.2.1, r.title, r.url, p.1,
            "web_scraped", p.2.2⟩)
        let next := processScrapedRecordsGo chunkOf embed dbId rs (count + 1)
        (docs ++ next.1, next.2)

/-- Document accumulation of the single-source build, starting from
`document_count = 0`. -/
def processScrapedRecords {V : Type} (chunkOf : String → List String)
    (embed : List String → Option (List V)) (dbId : String)
    (rs : List RawRecord) : List (IndexDoc V) × Nat :=
  processScrapedRecordsGo chunkOf embed dbId rs 0

/-- Final state of one vector-database build: the persisted `status`
(`ready` carries the persisted `document_count` and the uploaded
documents) or `error`. -/
inductive BuildResult (V : Type)
  | ready (documentCount : Nat) (uploaded : List (IndexDoc V))
  | error (msg : String)
deriving DecidableEq

/-- `_process_scraped_data_async` for database `dbId`: `snapshot = none`
models a missing `data/raw/{job}/scraped_data.json` (the
`os.path.exists` check fails and the raise is caught by the handler that
sets status `error`).  The relational row lookup and Azure client
construction are connection plumbing with no bearing on any claim and
are not modelled. -/
def processScrapedDataAsync {V : Type} (chunkOf : String → List String)
    (embed : List String → Option (List V))
    (uploadOk : List (IndexDoc V) → Bool) (dbId : String)
    (snapshot : Option ScrapedData) : BuildResult V :=
  match snapshot with
  | none => .error "Scraped data file not found"
  | some data =>
    if data.success then
      let out := processScrapedRecords chunkOf embed dbId
        (snapshotResults data)
      if out.1.isEmpty then .ready out.2 out.1
      else if uploadOk out.1 then .ready out.2 out.1
      else .error "Failed to upload batch"
    else .error "Scraped data indicates failure"

/-- The per-record loop of `_load_and_process_scraped_source` (hybrid
path): same skip/chunk/embed loop, but ids are
`f"{db_id}_scraped_{chunk_counter}_{i}"` and only the document list is
returned — a missing snapshot file yields `[]` with a warning instead
of raising. -/
def loadScrapedSourceGo {V : Type} (chunkOf : String → List String)
    (embed : List String → Option (List V)) (dbId : String) :
    List RawRecord → Nat → List (IndexDoc V)
  | [], _ => []
  | r :: rs, counter =>
    if blankContent r.content then
      loadScrapedSourceGo chunkOf embed dbId rs counter
    else
      let chunks := chunkOf r.content
      match embed chunks with
      | none => loadScrapedSourceGo chunkOf embed dbId rs counter
      | some embs =>
        let docs := (chunks.zip embs).enum.map
          (fun p => ⟨dbId ++ "_scraped_" ++ toString counter ++ "_" ++
            toString p.1, p.2.1, r.title, r.url, p.1, "web_scraped", p.2.2⟩)
        docs ++ loadScrapedSourceGo chunkOf embed dbId rs (counter + 1)

/-- `_load_and_process_scraped_source`: `none` = file missing → `[]`;
an unsuccessful envelope also yields `[]` (no raise on this path). -/
def loadScrapedSource {V : Type} (chunkOf : String → List String)
    (embed : List String → Option (List V)) (dbId : String)
    (snapshot : Option ScrapedData) : List (IndexDoc V) :=
  match snapshot with
  | none => []
  | some data =>
    if data.success then
      loadScrapedSourceGo chunkOf embed dbId (snapshotResults data) 0
    else []

/-- One pre-chunked record of a document job's snapshot. -/
structure DocRecord where
  title : String
  url : String
  content : String
  chunk_index : Nat
deriving DecidableEq

/-- `_load_and_process_document_source`: each record is already one
chunk; embed it alone; ids are
`f"{db_id}_doc_{chunk_counter}_{chunk_index}"`; a missing file or an
unsuccessful envelope yields `[]`. -/
def loadDocumentSourceGo {V : Type} (embed : List String → Option (List V))
    (dbId : String) : List DocRecord → Nat → List (IndexDoc V)
  | [], _ => []
  | r :: rs, counter =>
    if blankContent r.content then
      loadDocumentSourceGo embed dbId rs counter
    else
      match embed [r.content] with
      | none => loadDocumentSourceGo embed dbId rs counter
      | some embs =>
        match embs with
        | [] => loadDocumentSourceGo embed dbId rs counter
        | e :: _ =>
          ⟨dbId ++ "_doc_" ++ toString counter ++ "_" ++
              toString r.chunk_index, r.content, r.title, r.url,
            r.chunk_index, "uploaded_document", e⟩ ::
            loadDocumentSourceGo embed dbId rs (counter + 1)

/-- `_load_and_process_document_source` including the file-missing and
unsuccessful-envelope cases. -/
def loadDocumentSource {V : Type} (embed : List String → Option (List V))
    (dbId : String) (snapshot : Option (Bool × List DocRecord)) :
    List (IndexDoc V) :=
  match snapshot with
  | none => []
  | some (success, rs) =>
    if success then loadDocumentSourceGo embed dbId rs 0 else []

/-- `_process_hybrid_data_async`: gather documents from the optional
scraped source and each document job, upload everything, and persist
`document_count` as the *sum of the per-source document-list lengths*
(i.e. the chunk count).  `scrapedSource = none` models
`scraping_job_id = None`; `some none` models a provided job whose
snapshot file is missing. -/
def processHybridDataAsync {V : Type} (chunkOf : String → List String)
    (embed : List String → Option (List V))
    (uploadOk : List (IndexDoc V) → Bool) (dbId : String)
    (scrapedSource : Option (Option ScrapedData))
    (docSources : List (Option (Bool × List DocRecord))) : BuildResult V :=
  let scrapedDocs : List (IndexDoc V) :=
    match scrapedSource with
    | none => []
    | some snap => loadScrapedSource chunkOf embed dbId snap
  let docDocs : List (IndexDoc V) :=
    (docSources.map (loadDocumentSource embed dbId)).flatten
  let allDocs := scrapedDocs ++ docDocs
  let documentCount := scrapedDocs.length +
    (docSources.map (fun s => (loadDocumentSource embed dbId s).length)).sum
  if allDocs.isEmpty then .ready documentCount allDocs
  else if uploadOk allDocs then .ready documentCount allDocs
  else .error "Failed to upload batch"

/-! ## Database creation (`create_database_async`) -/

/-- A row of the `scraping_jobs` table (the columns the function reads). -/
structure ScrapingJobRow where
  id : String
  userId : Nat
  status : String
  url : String
deriving DecidableEq

/-- The externally visible side effects `create_database_async` can
perform, in program order. -/
inductive CreateEffect
  | createIndex (name : String)
  | insertBuilding (dbId : String)
  | startBackground (dbId : String)
deriving DecidableEq

/-- `create_database_async`: look the job up by id **and** owner **and**
`status = 'completed'`; if absent, raise before touching the index
backend or inserting the `building` row.  `dbId` stands for the
generated `uuid4` and `createIndexOk` for the success of
`_create_search_index`.  Returns the raised-or-returned value together
with the trace of effects that actually happened. -/
def createDatabaseAsync (jobs : List ScrapingJobRow) (userId : Nat)
    (scrapingJobId : String) (dbId : String) (createIndexOk : Bool) :
    Except String String × List CreateEffect :=
  match jobs.find? (fun j =>
      j.id = scrapingJobId ∧ j.userId = userId ∧ j.status = "completed") with
  | none => (.error "Scraping job not found or not completed", [])
  | some _job =>
    let azureIndexName := "usyd-rag-" ++ dbId
    if createIndexOk then
      (.ok dbId,
        [.createIndex azureIndexName, .insertBuilding dbId,
          .startBackground dbId])
    else
      (.error "Failed to create search index", [.createIndex azureIndexName])

/-! ## Index cleanup (`cleanup_unused_indexes`) -/

/-- A row of `vector_databases` (the columns the cleanup reads). -/
structure VdbRow where
  userId : Nat
  azureIndexName : String
deriving DecidableEq

/-- `str.startswith('usyd-rag-')`, phrased over the character list so
the kernel evaluates it directly. -/
def ragPrefixed (s : String) : Bool := "usyd-rag-".data.isPrefixOf s.data

/-- The returned statistics dict, plus an instrumentation field
`deleted` listing the index names whose `delete_index` call was made and
succeeded. -/
structure CleanupResult where
  totalIndexes : Nat
  orphanedFound : Nat
  deletedCount : Nat
  failedDeletions : List String
  deleted : List String
deriving DecidableEq

/-- `cleanup_unused_indexes`: diff the backend index names against the
relational rows (only the caller's rows when `user_id` is truthy —
Python's `if user_id:` treats both `None` and `0` as falsy), then delete
every orphan carrying the reserved prefix; `deleteOk` is the backend
delete oracle (`False` = the delete raised, collected in
`failedDeletions`). -/
def cleanupUnusedIndexes (azureIndexes : List String) (rows : List VdbRow)
    (userId : Option Nat) (deleteOk : String → Bool) : CleanupResult :=
  let dbIndexNames : List String :=
    match userId with
    | some uid =>
      if uid ≠ 0 then
        (rows.filter (fun r => r.userId = uid)).map (·.azureIndexName)
      else rows.map (·.azureIndexName)
    | none => rows.map (·.azureIndexName)
  let orphaned := azureIndexes.filter (fun n => n ∉ dbIndexNames)
  let candidates := orphaned.filter (fun n => ragPrefixed n)
  let deleted := candidates.filter (fun n => deleteOk n)
  let failed := candidates.filter (fun n => ¬ deleteOk n)
  ⟨azureIndexes.length, orphaned.length, deleted.length, failed, deleted⟩

/-! ## Search (`VectorStoreService.search`)

The whole body runs inside `try: ... except Exception: return []`, so
every raised error — the "not found or not ready" one included — reaches
the caller as an empty list.  `searchInner` is the body (exceptions as
`Except.error`), `search` is the Python function. -/

/-- A row of `vector_databases` as the search path reads it. -/
structure VdbRecord where
  id : String
  userId : Nat
  status : String
  azureIndexName : String
deriving DecidableEq

/-- One returned hit (score and metadata abstracted to `Nat`/`String`:
their values never influence control flow). -/
structure SearchHit where
  content : String
  title : String
  url : String
  score : Nat
deriving DecidableEq

/-- The `try` body of `search`: authorise (`id`, owner, `status =
'ready'`), then dispatch on `search_type`; `backend searchText vector
top` is `search_client.search(...)` and `embedQ` is
`_generate_embeddings([query])[0]` (`none` = the embedding call raised).
An unrecognised `search_type` falls through every branch and returns the
initial `results = []`. -/
def searchInner {V : Type} (dbs : List VdbRecord)
    (backend : Option String → Option V → Nat → List SearchHit)
    (embedQ : String → Option V) (dbId : String) (userId : Nat)
    (query searchType : String) (topK : Nat) :
    Except String (List SearchHit) :=
  match dbs.find? (fun r =>
      r.id = dbId ∧ r.userId = userId ∧ r.status = "ready") with
  | none => .error "Vector database not found or not ready"
  | some _rec =>
    if searchType = "semantic" ∨ searchType = "hybrid" then
      match embedQ query with
      | none => .error "Failed to generate embeddings"
      | some v =>
        if searchType = "semantic" then .ok (backend none (some v) topK)
        else .ok (backend (some query) (some v) topK)
    else if searchType = "keyword" then .ok (backend (some query) none topK)
    else .ok []

/-- `search`: the body with its catch-all `except` that logs and
returns `[]`. -/
def search {V : Type} (dbs : List VdbRecord)
    (backend : Option String → Option V → Nat → List SearchHit)
    (embedQ : String → Option V) (dbId : String) (userId : Nat)
    (query searchType : String) (topK : Nat) : List SearchHit :=
  match searchInner dbs backend embedQ dbId userId query searchType topK with
  | .ok r => r
  | .error _ => []

/-! ## Upsert semantics of the search index
(`SearchClient.upload_documents` keyed on the `id` field)

The backing index is a key→document map; uploading writes each document
under its id, overwriting any previous document with that id. -/

/-- The backing index, as a map from document id to document. -/
def IndexState (V : Type) : Type := String → Option (IndexDoc V)

/-- Upsert one document. -/
def upsertDoc {V : Type} (s : IndexState V) (d : IndexDoc V) : IndexState V :=
  fun k => if k = d.id then some d else s k

/-- Upload a batch: upsert the documents in order. -/
def upsertAll {V : Type} (s : IndexState V) : List (IndexDoc V) →
    IndexState V
  | [] => s
  | d :: ds => upsertAll (upsertDoc s d) ds

/-- The last document of a batch carrying a given id (the one whose
write survives). -/
def lastDocWith {V : Type} (ds : List (IndexDoc V)) (k : String) :
    Option (IndexDoc V) :=
  ds.reverse.find? (fun d => d.id = k)

/-! ## Concrete fixtures

Small closed instances used by witnesses and counterexamples: a
synthetic site graph for the crawler and toy chunker/embedder oracles
for the ingestion paths. -/

/-- Hosts for the synthetic site: URLs are numbers, URL `u` lives on
host `u / 100` (so `0..99` share the seed's host and `100..` do not). -/
def siteHost (u : Nat) : Nat := u / 100

/-- `urljoin` for the synthetic site: hrefs are already absolute. -/
def siteResolve (_current href : Nat) : Nat := href

/-- A synthetic site graph: page `0` links to `1` (same host), `100`
(foreign host) and back to itself; page `1` links to `2`; fetching
page `2` fails. -/
def siteWeb : List (Nat × Option (CrawlPage Nat)) :=
  [(0, some ⟨"root", "content0", [1, 100, 0]⟩),
   (1, some ⟨"a", "content1", [2]⟩),
   (2, none),
   (100, some ⟨"ext", "external", []⟩)]

/-- A toy chunker splitting every record into two chunks. -/
def twoChunks (s : String) : List String := [s, s]

/-- A toy embedder that always succeeds, one `Nat` "vector" per chunk. -/
def natEmbed (chunks : List String) : Option (List Nat) :=
  some (chunks.map String.length)

/-- A single nonempty raw record. -/
def sampleRecord : RawRecord := ⟨"http://s/a", "A", "hello"⟩

/-! # Helper lemmas -/

lemma chunkSlicesGo_length_le (tokens : List Nat) (chunkSize step : Nat) :
    ∀ fuel i c, c ∈ chunkSlicesGo tokens chunkSize step fuel i →
      c.length ≤ chunkSize := by
  intro fuel
  induction fuel with
  | zero => intro i c hc; simp [chunkSlicesGo] at hc
  | succ n ih =>
    intro i c hc
    by_cases hi : i < tokens.length
    · by_cases hend : tokens.length ≤ i + chunkSize
      · simp [chunkSlicesGo, hi, hend] at hc
        subst hc
        simp
      · simp [chunkSlicesGo, hi, hend] at hc
        rcases hc with hc | hc
        · subst hc
          simp
        · exact ih _ _ hc
    · simp [chunkSlicesGo, hi] at hc

lemma chunkSlicesGo_of_le (tokens : List Nat) (chunkSize step : Nat)
    (fuel i : Nat) (hi : tokens.length ≤ i) :
    chunkSlicesGo tokens chunkSize step fuel i = [] := by
  cases fuel with
  | zero => rfl
  | succ n => simp [chunkSlicesGo, Nat.not_lt.mpr hi]

lemma chunkSlicesGo_head (tokens : List Nat) (chunkSize step : Nat)
    (fuel i : Nat) (hfuel : 1 ≤ fuel) (hi : i < tokens.length) :
    ∃ rest, chunkSlicesGo tokens chunkSize step fuel i =
      (tokens.drop i).take chunkSize :: rest := by
  obtain ⟨n, rfl⟩ : ∃ n, fuel = n + 1 := by
    rcases fuel with _ | n
    · omega
    · exact ⟨n, rfl⟩
  by_cases hend : tokens.length ≤ i + chunkSize
  · exact ⟨[], by simp [chunkSlicesGo, hi, hend]⟩
  · exact ⟨chunkSlicesGo tokens chunkSize step n (i + step),
      by simp [chunkSlicesGo, hi, hend]⟩

/-- Dropping the first `overlap` tokens of *every* chunk (the first one
included) and concatenating yields the input from position `i + overlap`
on: the chunks tile the token list with stride `chunkSize - overlap`. -/
lemma flatten_drop_chunkSlicesGo (tokens : List Nat)
    (chunkSize overlap : Nat) (hov : overlap < chunkSize) :
    ∀ fuel i, tokens.length - i ≤ fuel →
      ((chunkSlicesGo tokens chunkSize (chunkSize - overlap) fuel i).map
          (List.drop overlap)).flatten = tokens.drop (i + overlap) := by
  intro fuel
  induction fuel with
  | zero =>
    intro i hfi
    have hi : tokens.length ≤ i + overlap := by omega
    simp [chunkSlicesGo, List.drop_eq_nil_of_le hi]
  | succ n ih =>
    intro i hfi
    by_cases hi : i < tokens.length
    · have hchunk : List.drop overlap ((tokens.drop i).take chunkSize) =
          (tokens.drop (i + overlap)).take (chunkSize - overlap) := by
        rw [List.drop_take, List.drop_drop]
      by_cases hend : tokens.length ≤ i + chunkSize
      · have hlen : (tokens.drop (i + overlap)).length ≤
            chunkSize - overlap := by
          simp only [List.length_drop]; omega
        simp [chunkSlicesGo, hi, hend, hchunk, List.take_of_length_le hlen]
      · have hfi' : tokens.length - (i + (chunkSize - overlap)) ≤ n := by
          omega
        have ihs := ih (i + (chunkSize - overlap)) hfi'
        simp only [chunkSlicesGo, hi, hend, if_true, if_false, if_pos, if_neg,
          List.map_cons, List.flatten_cons]
        have h2 : tokens.drop (i + (chunkSize - overlap) + overlap) =
            (tokens.drop (i + overlap)).drop (chunkSize - overlap) := by
          rw [List.drop_drop]
          congr 1
          omega
        rw [hchunk, ihs, h2, List.take_append_drop]
    · have h1 : tokens.length ≤ i := by omega
      have h2 : tokens.length ≤ i + overlap := by omega
      simp [chunkSlicesGo, hi, List.drop_eq_nil_of_le h2]

/-- Reassembling the chunk list (first chunk whole, every later chunk
with its `overlap`-token prefix dropped) restores the token list from
position `i` on. -/
lemma reassemble_chunkSlicesGo (tokens : List Nat)
    (chunkSize overlap : Nat) (hov : overlap < chunkSize) :
    ∀ fuel i, tokens.length - i ≤ fuel →
      reassemble overlap
        (chunkSlicesGo tokens chunkSize (chunkSize - overlap) fuel i) =
        tokens.drop i := by
  intro fuel i hfi
  by_cases hi : i < tokens.length
  · have hfuel : 1 ≤ fuel := by omega
    obtain ⟨rest, hrest⟩ :=
      chunkSlicesGo_head tokens chunkSize (chunkSize - overlap) fuel i
        hfuel hi
    have hflat := flatten_drop_chunkSlicesGo tokens chunkSize overlap hov
      fuel i hfi
    rw [hrest] at hflat ⊢
    simp only [List.map_cons, List.flatten_cons] at hflat
    simp only [reassemble]
    have hsplit : (tokens.drop i).take chunkSize =
        ((tokens.drop i).take chunkSize).take overlap ++
          ((tokens.drop i).take chunkSize).drop overlap :=
      (List.take_append_drop _ _).symm
    calc (tokens.drop i).take chunkSize ++
          (rest.map (List.drop overlap)).flatten
        = ((tokens.drop i).take chunkSize).take overlap ++
            (((tokens.drop i).take chunkSize).drop overlap ++
              (rest.map (List.drop overlap)).flatten) := by
          rw [← List.append_assoc, ← hsplit]
      _ = ((tokens.drop i).take chunkSize).take overlap ++
            tokens.drop (i + overlap) := by rw [hflat]
      _ = (tokens.drop i).take overlap ++ (tokens.drop i).drop overlap := by
          rw [List.take_take, Nat.min_eq_left (Nat.le_of_lt hov),
            List.drop_drop]
      _ = tokens.drop i := List.take_append_drop _ _
  · rw [chunkSlicesGo_of_le tokens chunkSize (chunkSize - overlap) fuel i
      (by omega)]
    simp [reassemble, List.drop_eq_nil_of_le (show tokens.length ≤ i by omega)]

/-- Safety invariant of the crawl loop: assuming the accumulators are
consistent (the visited set mirrors the visit log; everything already
logged is depth-bounded, page-bounded and on the seed's host; every
frontier entry is on the seed's host), the final outcome satisfies the
same bounds.  Holds for every fuel. -/
lemma deepCrawlGo_invariant {U H : Type} [DecidableEq U] [DecidableEq H]
    (host : U → H) (resolve : U → U → U)
    (web : List (U × Option (CrawlPage U))) (seed : U)
    (maxDepth maxPages : Nat) :
    ∀ fuel scraped frontier results log,
      scraped = log.map Prod.fst →
      (log.map Prod.fst).Nodup →
      (∀ p ∈ log, p.2 ≤ maxDepth) →
      (∀ p ∈ log, host p.1 = host seed) →
      log.length ≤ maxPages →
      (∀ p ∈ frontier, host p.1 = host seed) →
      ((deepCrawlGo host resolve web seed maxDepth maxPages fuel scraped
          frontier results log).visitLog.map Prod.fst).Nodup ∧
      (∀ p ∈ (deepCrawlGo host resolve web seed maxDepth maxPages fuel
          scraped frontier results log).visitLog, p.2 ≤ maxDepth) ∧
      (deepCrawlGo host resolve web seed maxDepth maxPages fuel scraped
          frontier results log).visitLog.length ≤ maxPages ∧
      (∀ p ∈ (deepCrawlGo host resolve web seed maxDepth maxPages fuel
          scraped frontier results log).visitLog, host p.1 = host seed) ∧
      (deepCrawlGo host resolve web seed maxDepth maxPages fuel scraped
          frontier results log).success = true := by
  intro fuel
  induction fuel with
  | zero =>
    intro scraped frontier results log hsc hnd hdep hhost hlen hfr
    exact ⟨hnd, hdep, hlen, hhost, rfl⟩
  | succ n ih =>
    intro scraped frontier results log hsc hnd hdep hhost hlen hfr
    match frontier with
    | [] => exact ⟨hnd, hdep, hlen, hhost, rfl⟩
    | (u, d) :: rest =>
      by_cases hfull : maxPages ≤ scraped.length
      · simp only [deepCrawlGo, if_pos hfull]
        exact ⟨hnd, hdep, hlen, hhost, by trivial⟩
      · by_cases hskip : u ∈ scraped ∨ maxDepth < d
        · simp only [deepCrawlGo, if_neg hfull, if_pos hskip]
          exact ih scraped rest results log hsc hnd hdep hhost hlen
            (fun p hp => hfr p (List.mem_cons_of_mem _ hp))
        · have hns := hskip
          push_neg at hskip
          obtain ⟨hu, hd⟩ := hskip
          have hlog' : (log ++ [(u, d)]).map Prod.fst =
              log.map Prod.fst ++ [u] := by simp
          have hsc' : scraped ++ [u] = ((log ++ [(u, d)]).map Prod.fst) := by
            rw [hlog', hsc]
          have hnd' : ((log ++ [(u, d)]).map Prod.fst).Nodup := by
            rw [hlog']
            simp only [List.nodup_append, List.nodup_cons, List.not_mem_nil,
              not_false_iff, List.nodup_nil, and_true, true_and]
            constructor
            · exact hnd
            · intro a ha hb
              simp only [List.mem_singleton] at hb
              subst hb
              exact hu (hsc ▸ ha)
          have hdep' : ∀ p ∈ log ++ [(u, d)], p.2 ≤ maxDepth := by
            intro p hp
            rcases List.mem_append.mp hp with hp | hp
            · exact hdep p hp
            · simp only [List.mem_singleton] at hp
              subst hp
              exact hd
          have hhost' : ∀ p ∈ log ++ [(u, d)], host p.1 = host seed := by
            intro p hp
            rcases List.mem_append.mp hp with hp | hp
            · exact hhost p hp
            · simp only [List.mem_singleton] at hp
              subst hp
              exact hfr (u, d) (List.mem_cons_self _ _)
          have hlen' : (log ++ [(u, d)]).length ≤ maxPages := by
            have h1 : scraped.length < maxPages := Nat.not_le.mp hfull
            have hls : log.length = scraped.length := by
              rw [hsc]
              simp
            simp only [List.length_append, List.length_singleton]
            omega
          have hrest : ∀ p ∈ rest, host p.1 = host seed :=
            fun p hp => hfr p (List.mem_cons_of_mem _ hp)
          match hfetch : fetchWeb web u with
          | none =>
            simp only [deepCrawlGo, if_neg hfull, if_neg hns, hfetch]
            exact ih (scraped ++ [u]) rest results (log ++ [(u, d)])
              hsc' hnd' hdep' hhost' hlen' hrest
          | some page =>
            simp only [deepCrawlGo, if_neg hfull, if_neg hns, hfetch]
            refine ih (scraped ++ [u]) _ _ (log ++ [(u, d)])
              hsc' hnd' hdep' hhost' hlen' ?_
            intro p hp
            rcases List.mem_append.mp hp with hp | hp
            · exact hrest p hp
            · by_cases hdm : d < maxDepth
              · simp only [if_pos hdm, List.mem_map] at hp
                obtain ⟨lu, hlu, hplu⟩ := hp
                have hmf := List.mem_filter.mp hlu
                have hh : host lu = host seed ∧ lu ∉ scraped ++ [u] := by
                  simpa using hmf.2
                subst hplu
                exact hh.1
              · simp [if_neg hdm] at hp

/-! # Claim theorems -/

/-- Claim C1 (amended): for every token sequence and parameters
`targetSize > overlap ≥ 0`, `_chunk_text` returns an ordered list of
chunks such that every emitted chunk has at most `targetSize` tokens,
concatenating the chunks in order — dropping the `overlap`-token prefix
of every chunk after the first — reconstructs the original token
sequence (no text dropped), and *empty* input yields zero chunks rather
than an error.  (The claim's further assertion that *whitespace-only*
input also yields zero chunks is refuted by
`c1_whitespace_counterexample`.) -/
theorem c1_chunker_bounds_and_coverage (tokens : List Nat)
    (chunkSize overlap : Nat) (hov : overlap < chunkSize) :
    (∀ c ∈ chunkTextTokens tokens chunkSize overlap,
      c.length ≤ chunkSize) ∧
    reassemble overlap (chunkTextTokens tokens chunkSize overlap) =
      tokens ∧
    (tokens = [] → chunkTextTokens tokens chunkSize overlap = []) := by
  refine ⟨fun c hc => chunkSlicesGo_length_le tokens chunkSize
    (chunkSize - overlap) tokens.length 0 c hc, ?_, ?_⟩
  · have h := reassemble_chunkSlicesGo tokens chunkSize overlap hov
      tokens.length 0 (by omega)
    simpa [chunkTextTokens] using h
  · intro h
    subst h
    rfl

/-- Witness for C1: a concrete run, `targetSize = 3`, `overlap = 1`. -/
theorem c1_chunker_bounds_and_coverage_witness :
    1 < 3 ∧
    reassemble 1 (chunkTextTokens [1, 2, 3, 4, 5] 3 1) = [1, 2, 3, 4, 5] ∧
    chunkTextTokens [1, 2, 3, 4, 5] 3 1 = [[1, 2, 3], [3, 4, 5]] :=
  ⟨by decide,
   (c1_chunker_bounds_and_coverage [1, 2, 3, 4, 5] 3 1 (by decide)).2.1,
   by decide⟩

/-- Claim C1, counterexample to the whitespace-only part: under any
tokenizer whose `decode` inverts `encode` (here the character-level
one; `tiktoken`'s `cl100k_base` is also lossless), the whitespace-only
input `" "` encodes to a nonempty token list, so `_chunk_text` emits
one whitespace chunk — not zero chunks as the claim states. -/
theorem c1_whitespace_counterexample :
    charDecode (charEncode " ") = " " ∧
    chunkTextWith charEncode charDecode " " 1000 200 = [" "] ∧
    chunkTextWith charEncode charDecode " " 1000 200 ≠ [] :=
  ⟨by decide, by decide, by decide⟩

/-- Claim C2: for every seed URL, `maxDepth` and `maxPages`, the deep
crawl `scrape_website_deep` visits no URL more than once, visits no URL
at depth exceeding `maxDepth`, visits at most `maxPages` URLs in total,
every visited URL (hence every enqueued link) is on the seed's host,
the crawl always ends successfully, and a fetch failure on one page is
skipped — the loop continues on the remaining frontier with the failed
URL merely marked visited. -/
theorem c2_deep_crawl_bounds {U H : Type} [DecidableEq U] [DecidableEq H]
    (host : U → H) (resolve : U → U → U)
    (web : List (U × Option (CrawlPage U))) (seed : U)
    (maxDepth maxPages : Nat) :
    ((scrapeWebsiteDeep host resolve web seed maxDepth maxPages).visitLog.map
        Prod.fst).Nodup ∧
    (∀ p ∈ (scrapeWebsiteDeep host resolve web seed maxDepth
        maxPages).visitLog, p.2 ≤ maxDepth) ∧
    (scrapeWebsiteDeep host resolve web seed maxDepth
        maxPages).visitLog.length ≤ maxPages ∧
    (∀ p ∈ (scrapeWebsiteDeep host resolve web seed maxDepth
        maxPages).visitLog, host p.1 = host seed) ∧
    (scrapeWebsiteDeep host resolve web seed maxDepth maxPages).success
        = true ∧
    (∀ (fuel : Nat) (scraped : List U) (rest : List (U × Nat))
        (results : List (PageResult U)) (log : List (U × Nat))
        (u : U) (d : Nat),
      u ∉ scraped → d ≤ maxDepth → scraped.length < maxPages →
      fetchWeb web u = none →
      deepCrawlGo host resolve web seed maxDepth maxPages (fuel + 1)
          scraped ((u, d) :: rest) results log =
        deepCrawlGo host resolve web seed maxDepth maxPages fuel
          (scraped ++ [u]) rest results (log ++ [(u, d)])) := by
  have hinv := deepCrawlGo_invariant host resolve web seed maxDepth maxPages
    (1 + (1 + maxPages) * (1 + totalWebLinks web)) [] [(seed, 0)] [] []
    rfl (by simp) (by simp) (by simp) (by simp)
    (by
      intro p hp
      simp only [List.mem_singleton] at hp
      subst hp
      rfl)
  refine ⟨hinv.1, hinv.2.1, hinv.2.2.1, hinv.2.2.2.1, hinv.2.2.2.2, ?_⟩
  intro fuel scraped rest results log u d hu hd hlt hfetch
  have hns : ¬(u ∈ scraped ∨ maxDepth < d) := by
    push_neg
    exact ⟨hu, hd⟩
  simp only [deepCrawlGo, if_neg (Nat.not_le.mpr hlt), if_neg hns, hfetch]

/-- Witness for C2 on the synthetic site graph: page `2`'s fetch fails
yet it is visited (at depth 2) and the crawl completes; the visit log
is duplicate-free, within the page budget, and on the seed's host. -/
theorem c2_deep_crawl_bounds_witness :
    (2, 2) ∈ (scrapeWebsiteDeep siteHost siteResolve siteWeb 0 2 10).visitLog ∧
    siteHost 2 = siteHost 0 ∧
    ((scrapeWebsiteDeep siteHost siteResolve siteWeb 0 2 10).visitLog.map
        Prod.fst).Nodup ∧
    (scrapeWebsiteDeep siteHost siteResolve siteWeb 0 2 10).visitLog.length
        ≤ 10 ∧
    (scrapeWebsiteDeep siteHost siteResolve siteWeb 0 2 10).success = true :=
  ⟨by decide,
   (c2_deep_crawl_bounds siteHost siteResolve siteWeb 0 2 10).2.2.2.1 (2, 2)
     (by decide),
   (c2_deep_crawl_bounds siteHost siteResolve siteWeb 0 2 10).1,
   (c2_deep_crawl_bounds siteHost siteResolve siteWeb 0 2 10).2.2.1,
   (c2_deep_crawl_bounds siteHost siteResolve siteWeb 0 2 10).2.2.2.2.1⟩

/-- The running `document_count` of the single-source loop counts
exactly the records that are nonblank and whose embedding call
succeeds. -/
lemma processScrapedRecordsGo_count {V : Type} (chunkOf : String → List String)
    (embed : List String → Option (List V)) (dbId : String) :
    ∀ (rs : List RawRecord) (count : Nat),
      (processScrapedRecordsGo chunkOf embed dbId rs count).2 =
        count + (rs.filter (fun r => !blankContent r.content &&
          (embed (chunkOf r.content)).isSome)).length := by
  intro rs
  induction rs with
  | nil => intro count; simp [processScrapedRecordsGo]
  | cons r rs ih =>
    intro count
    by_cases hb : blankContent r.content
    · simp [processScrapedRecordsGo, hb, ih count]
    · match hemb : embed (chunkOf r.content) with
      | none =>
        simp [processScrapedRecordsGo, hb, hemb, ih count]
      | some embs =>
        simp only [processScrapedRecordsGo, hb, hemb, if_neg, ite_false,
          Bool.not_eq_true]
        rw [ih (count + 1), List.filter_cons, if_pos (by simp [hb, hemb])]
        simp only [List.length_cons]
        omega

/-- Claim C3 (amended): after a successful **single-source** build the
persisted `documentCount` equals the number of source content records
successfully embedded (blank records and records whose embedding call
failed are not counted; chunks are not counted).  In the **hybrid**
build path, however, the persisted `documentCount` equals the number of
uploaded chunk documents, not the number of source records — see
`c3_hybrid_counterexample`. -/
theorem c3_document_count_semantics {V : Type}
    (chunkOf : String → List String)
    (embed : List String → Option (List V))
    (uploadOk : List (IndexDoc V) → Bool) (dbId : String) :
    (∀ rs : List RawRecord,
      (processScrapedRecords chunkOf embed dbId rs).2 =
        (rs.filter (fun r => !blankContent r.content &&
          (embed (chunkOf r.content)).isSome)).length) ∧
    (∀ (scrapedSource : Option (Option ScrapedData))
        (docSources : List (Option (Bool × List DocRecord)))
        (c : Nat) (docs : List (IndexDoc V)),
      processHybridDataAsync chunkOf embed uploadOk dbId scrapedSource
          docSources = .ready c docs →
      c = docs.length) := by
  constructor
  · intro rs
    simpa using processScrapedRecordsGo_count chunkOf embed dbId rs 0
  · intro scrapedSource docSources c docs h
    simp only [processHybridDataAsync] at h
    have hsum : ∀ (sd : List (IndexDoc V)),
        sd.length + (docSources.map
            (fun s => (loadDocumentSource embed dbId s).length)).sum =
          (sd ++ (docSources.map (loadDocumentSource embed dbId)).flatten
            ).length := by
      intro sd
      rw [List.length_append, List.length_flatten, List.map_map]
      rfl
    split at h
    · obtain ⟨h1, h2⟩ := BuildResult.ready.inj h
      subst h2
      rw [← h1]
      exact hsum _
    · split at h
      · obtain ⟨h1, h2⟩ := BuildResult.ready.inj h
        subst h2
        rw [← h1]
        exact hsum _
      · cases h

/-- Witness for C3: the single-source path over one two-chunk record
persists `documentCount = 1` (records, not chunks). -/
theorem c3_document_count_semantics_witness :
    (processScrapedRecords twoChunks natEmbed "db" [sampleRecord]).2 = 1 ∧
    (processScrapedRecords twoChunks natEmbed "db" [sampleRecord]).1.length
      = 2 :=
  ⟨by
    have h := (c3_document_count_semantics twoChunks natEmbed
      (fun _ => true) "db").1 [sampleRecord]
    rw [h]
    decide,
   by decide⟩

/-- Claim C3, counterexample for the hybrid path: one source record
producing two chunks is persisted with `documentCount = 2` (the chunk
count) by `_process_hybrid_data_async`, while only `1` source record
was successfully embedded. -/
theorem c3_hybrid_counterexample :
    processHybridDataAsync twoChunks natEmbed (fun _ => true) "db"
        (some (some ⟨true, .multi [sampleRecord]⟩)) [] =
      .ready 2
        [⟨"db_scraped_0_0", "hello", "A", "http://s/a", 0, "web_scraped", 5⟩,
         ⟨"db_scraped_0_1", "hello", "A", "http://s/a", 1, "web_scraped", 5⟩]
      ∧
    ([sampleRecord].filter (fun r => !blankContent r.content &&
        (natEmbed (twoChunks r.content)).isSome)).length = 1 ∧
    (2 : Nat) ≠ 1 :=
  ⟨by decide, by decide, by decide⟩

/-- Claim C4 (amended): a missing snapshot file is fatal in the
single-source build path (`_process_scraped_data_async` raises and the
database is marked `error`), but in the hybrid path
(`_process_hybrid_data_async` via `_load_and_process_scraped_source`)
a missing snapshot is downgraded to a warning and an empty source, so
the build can finish `ready` with zero documents. -/
theorem c4_missing_snapshot {V : Type} (chunkOf : String → List String)
    (embed : List String → Option (List V))
    (uploadOk : List (IndexDoc V) → Bool) (dbId : String) :
    processScrapedDataAsync chunkOf embed uploadOk dbId none =
      .error "Scraped data file not found" ∧
    processHybridDataAsync chunkOf embed uploadOk dbId (some none) [] =
      .ready 0 [] := by
  exact ⟨rfl, rfl⟩

/-- Claim C4, counterexample: a hybrid build whose only source is a
scraping job with a missing snapshot file ends in status `ready` with
zero documents — a silent empty-database success, not the `error` the
claim requires. -/
theorem c4_hybrid_counterexample :
    processHybridDataAsync twoChunks natEmbed (fun _ => true) "db"
        (some none) [] = .ready 0 [] :=
  rfl

/-- Claim C5: every `create_database_async` call referencing a source
job that does not exist, is not owned by the caller, or has a status
other than `completed`, fails synchronously with the validation error
and performs no effect: no search index is created and no `building`
VectorDatabase row is inserted. -/
theorem c5_create_database_validation (jobs : List ScrapingJobRow)
    (userId : Nat) (scrapingJobId dbId : String) (createIndexOk : Bool)
    (h : ∀ j ∈ jobs, ¬(j.id = scrapingJobId ∧ j.userId = userId ∧
      j.status = "completed")) :
    createDatabaseAsync jobs userId scrapingJobId dbId createIndexOk =
      (.error "Scraping job not found or not completed", []) := by
  have hf : jobs.find? (fun j => j.id = scrapingJobId ∧
      j.userId = userId ∧ j.status = "completed") = none := by
    rw [List.find?_eq_none]
    intro j hj
    simpa using h j hj
  simp only [createDatabaseAsync]
  rw [hf]

/-- Witness for C5: job `j1` exists but belongs to user 2, `j2` is the
caller's but not `completed`; the call errors with an empty effect
trace. -/
theorem c5_create_database_validation_witness :
    createDatabaseAsync
        [⟨"j1", 2, "completed", "http://x"⟩, ⟨"j2", 1, "running", "http://y"⟩]
        1 "j1" "d1" true =
      (.error "Scraping job not found or not completed", []) :=
  c5_create_database_validation _ 1 "j1" "d1" true (by decide)

/-- Unfolding of the sub-batching: a nonempty text list splits into its
first ten texts and the batches of the rest. -/
lemma embedBatches_cons (l : List String) (hl : l ≠ []) :
    embedBatches l = l.take 10 :: embedBatches (l.drop 10) := by
  have hn : 1 ≤ l.length := List.length_pos.mpr hl
  unfold embedBatches
  have hcount : (l.length + 9) / 10 = (l.length - 1) / 10 + 1 := by
    rw [show l.length + 9 = (l.length - 1) + 10 by omega,
      Nat.add_div_right _ (by norm_num)]
  have hcount2 : ((l.drop 10).length + 9) / 10 = (l.length - 1) / 10 := by
    simp only [List.length_drop]
    omega
  rw [hcount, hcount2, List.range_succ_eq_map]
  simp only [List.map_cons, List.map_map, Nat.mul_zero, List.drop_zero]
  congr 1
  apply List.map_congr_left
  intro k _
  simp only [Function.comp_apply, List.drop_drop]
  congr 2
  omega

lemma embedBatches_flattenAux :
    ∀ (n : Nat) (l : List String), l.length ≤ n →
      (embedBatches l).flatten = l := by
  intro n
  induction n with
  | zero =>
    intro l hl
    have : l = [] := List.length_eq_zero.mp (Nat.le_zero.mp hl)
    subst this
    rfl
  | succ n ih =>
    intro l hl
    rcases l with _ | ⟨x, xs⟩
    · rfl
    · have hdlen : ((x :: xs).drop 10).length ≤ n := by
        simp only [List.length_drop, List.length_cons]
        simp only [List.length_cons] at hl
        omega
      rw [embedBatches_cons _ (by simp), List.flatten_cons,
        ih ((x :: xs).drop 10) hdlen]
      exact List.take_append_drop _ _

/-- The sub-batches concatenate back to the input text list. -/
lemma embedBatches_flatten (l : List String) : (embedBatches l).flatten = l :=
  embedBatches_flattenAux l.length l le_rfl

/-- A provider that maps each text to its embedding makes the batch
loop return exactly the pointwise embeddings, in order. -/
lemma embedGo_pointwise {V : Type} (callApi : List String → Option (List V))
    (e : String → V) (hapi : ∀ b, callApi b = some (b.map e)) :
    ∀ bs : List (List String), embedGo callApi bs = some (bs.flatten.map e)
    := by
  intro bs
  induction bs with
  | nil => rfl
  | cons b bs ih => simp [embedGo, hapi b, ih]

/-- A failing call on any sub-batch makes the whole loop fail. -/
lemma embedGo_none {V : Type} (callApi : List String → Option (List V)) :
    ∀ (bs : List (List String)) (b : List String), b ∈ bs →
      callApi b = none → embedGo callApi bs = none := by
  intro bs
  induction bs with
  | nil => intro b hb; cases hb
  | cons b0 bs ih =>
    intro b hb hnone
    rcases List.mem_cons.mp hb with hb | hb
    · subst hb
      simp [embedGo, hnone]
    · cases h0 : callApi b0 with
      | none => simp [embedGo, h0]
      | some vs => simp [embedGo, h0, ih b hb hnone]

/-- Claim C6: for every list of input texts, `_generate_embeddings`
issues provider calls in sub-batches of at most 10 texts; when the
provider embeds each batch pointwise it returns exactly one vector per
input text in input order; and a provider failure on any sub-batch
makes the whole call fail (raise) rather than return a partial
result. -/
theorem c6_embedder_batching {V : Type}
    (callApi : List String → Option (List V)) (texts : List String) :
    (∀ b ∈ embedBatches texts, b.length ≤ 10) ∧
    (∀ e : String → V, (∀ b, callApi b = some (b.map e)) →
      generateEmbeddings callApi texts = some (texts.map e)) ∧
    (∀ b ∈ embedBatches texts, callApi b = none →
      generateEmbeddings callApi texts = none) := by
  refine ⟨?_, ?_, ?_⟩
  · intro b hb
    simp only [embedBatches, List.mem_map, List.mem_range] at hb
    obtain ⟨k, _, rfl⟩ := hb
    simp only [List.length_take]
    omega
  · intro e hapi
    unfold generateEmbeddings
    rw [embedGo_pointwise callApi e hapi, embedBatches_flatten]
  · intro b hb hnone
    exact embedGo_none callApi (embedBatches texts) b hb hnone

/-- Witness for C6: a pointwise provider yields one vector per text in
order; a failing provider aborts the whole call. -/
theorem c6_embedder_batching_witness :
    generateEmbeddings (fun b => some (b.map String.length))
        ["a", "bb", "", "cccc"] = some [1, 2, 0, 4] ∧
    generateEmbeddings (V := Nat) (fun _ => none) ["a"] = none :=
  ⟨(c6_embedder_batching (fun b => some (b.map String.length))
      ["a", "bb", "", "cccc"]).2.1 String.length (fun _ => rfl),
   (c6_embedder_batching (V := Nat) (fun _ => none) ["a"]).2.2
     ["a"] (by decide) rfl⟩

/-- Reading the index after a batch upload: a key uploaded in the batch
holds the batch's last document with that id; other keys are
untouched. -/
lemma upsertAll_lookup {V : Type} :
    ∀ (ds : List (IndexDoc V)) (s : IndexState V) (k : String),
      upsertAll s ds k =
        match lastDocWith ds k with
        | some d => some d
        | none => s k := by
  intro ds
  induction ds with
  | nil => intro s k; rfl
  | cons d ds ih =>
    intro s k
    have hlast : lastDocWith (d :: ds) k =
        match lastDocWith ds k with
        | some d2 => some d2
        | none => if d.id = k then some d else none := by
      simp only [lastDocWith, List.reverse_cons, List.find?_append]
      cases hfind : ds.reverse.find? (fun x => x.id = k) with
      | none =>
        simp only [hfind, Option.none_orElse, List.find?]
        by_cases hid : d.id = k
        · simp [hid]
        · simp [hid]
      | some d2 => simp [hfind]
    rw [show upsertAll s (d :: ds) = upsertAll (upsertDoc s d) ds from rfl,
      ih (upsertDoc s d) k, hlast]
    cases hfind : lastDocWith ds k with
    | some d2 => rfl
    | none =>
      simp only [upsertDoc]
      by_cases hid : k = d.id
      · simp [hid]
      · rw [if_neg hid, if_neg (fun h => hid h.symm)]

/-- Re-uploading the same batch leaves the index exactly as after the
first upload: upserts overwrite, they do not duplicate. -/
lemma upsertAll_idempotent {V : Type} (s : IndexState V)
    (ds : List (IndexDoc V)) :
    upsertAll (upsertAll s ds) ds = upsertAll s ds := by
  funext k
  rw [upsertAll_lookup ds (upsertAll s ds) k, upsertAll_lookup ds s k]
  cases h : lastDocWith ds k with
  | some d => rfl
  | none => rfl

/-- Every document emitted by the single-source loop carries the id
`{dbId}_{k}_{chunkIndex}` for a source index `k` between the loop's
starting count and its final count. -/
lemma processScrapedRecordsGo_ids {V : Type} (chunkOf : String → List String)
    (embed : List String → Option (List V)) (dbId : String) :
    ∀ (rs : List RawRecord) (count : Nat),
      ∀ d ∈ (processScrapedRecordsGo chunkOf embed dbId rs count).1,
        ∃ k, count ≤ k ∧
          k < (processScrapedRecordsGo chunkOf embed dbId rs count).2 ∧
          d.id = mkDocId dbId k d.chunk_index := by
  intro rs
  induction rs with
  | nil => intro count d hd; simp [processScrapedRecordsGo] at hd
  | cons r rs ih =>
    intro count d hd
    by_cases hb : blankContent r.content
    · simp only [processScrapedRecordsGo, hb, ite_true] at hd ⊢
      exact ih count d hd
    · match hemb : embed (chunkOf r.content) with
      | none =>
        simp only [processScrapedRecordsGo, hb, hemb, Bool.false_eq_true,
          ite_false] at hd ⊢
        exact ih count d hd
      | some embs =>
        simp only [processScrapedRecordsGo, hb, hemb, Bool.false_eq_true,
          ite_false] at hd ⊢
        rcases List.mem_append.mp hd with hd | hd
        · simp only [List.mem_map] at hd
          obtain ⟨p, _, rfl⟩ := hd
          refine ⟨count, le_rfl, ?_, rfl⟩
          have hcount := processScrapedRecordsGo_count chunkOf embed dbId rs
            (count + 1)
          simp only [hcount]
          omega
        · obtain ⟨k, hk1, hk2, hk3⟩ := ih (count + 1) d hd
          exact ⟨k, by omega, hk2, hk3⟩

/-- Claim C7: the single-source indexing step assigns each uploaded
chunk the deterministic document id `{dbId}_{sourceIndex}_{chunkIndex}`
(`sourceIndex` counts the successfully embedded records, `chunkIndex`
is the chunk's position within its record), and uploading the resulting
batch a second time upserts over the first run — the index state after
two uploads equals the state after one, so nothing is duplicated. -/
theorem c7_deterministic_ids_idempotent_upload {V : Type}
    (chunkOf : String → List String)
    (embed : List String → Option (List V)) (dbId : String)
    (rs : List RawRecord) :
    (∀ d ∈ (processScrapedRecords chunkOf embed dbId rs).1,
      ∃ k, k < (processScrapedRecords chunkOf embed dbId rs).2 ∧
        d.id = mkDocId dbId k d.chunk_index) ∧
    (∀ s : IndexState V,
      upsertAll (upsertAll s (processScrapedRecords chunkOf embed dbId rs).1)
          (processScrapedRecords chunkOf embed dbId rs).1 =
        upsertAll s (processScrapedRecords chunkOf embed dbId rs).1) := by
  constructor
  · intro d hd
    obtain ⟨k, _, hk2, hk3⟩ :=
      processScrapedRecordsGo_ids chunkOf embed dbId rs 0 d hd
    exact ⟨k, hk2, hk3⟩
  · intro s
    exact upsertAll_idempotent s _

/-- Witness for C7: on the concrete two-chunk record the emitted ids
are `db_0_0` and `db_0_1`, and re-uploading the batch onto the index it
already populated changes nothing. -/
theorem c7_deterministic_ids_idempotent_upload_witness :
    (processScrapedRecords twoChunks natEmbed "db" [sampleRecord]).1.map
        IndexDoc.id = ["db_0_0", "db_0_1"] ∧
    upsertAll
        (upsertAll (fun _ => none)
          (processScrapedRecords twoChunks natEmbed "db" [sampleRecord]).1)
        (processScrapedRecords twoChunks natEmbed "db" [sampleRecord]).1 =
      upsertAll (fun _ => none)
        (processScrapedRecords twoChunks natEmbed "db" [sampleRecord]).1 :=
  ⟨by decide,
   (c7_deterministic_ids_idempotent_upload twoChunks natEmbed "db"
     [sampleRecord]).2 (fun _ => none)⟩

/-- Counting identity behind "deletes exactly N − M": prefix-named
orphans plus prefix-named referenced indexes add up to all prefix-named
indexes. -/
lemma cleanup_count_split (l names : List String) :
    ((l.filter (fun n => n ∉ names)).filter (fun n => ragPrefixed n)).length
      + (l.filter (fun n => ragPrefixed n && decide (n ∈ names))).length =
      (l.filter (fun n => ragPrefixed n)).length := by
  induction l with
  | nil => rfl
  | cons a l ih =>
    by_cases hm : a ∈ names
    · by_cases hp : ragPrefixed a
      · simp [List.filter_cons, hm, hp] at ih ⊢
        omega
      · simp [List.filter_cons, hm, hp] at ih ⊢
        omega
    · by_cases hp : ragPrefixed a
      · simp [List.filter_cons, hm, hp] at ih ⊢
        omega
      · simp [List.filter_cons, hm, hp] at ih ⊢
        omega

/-- Claim C8 (amended): with **no owner filter** (`user_id = None`) and
a backend whose deletes succeed, `cleanup_unused_indexes` deletes
exactly the prefix-named indexes that have no owning `vector_databases`
row — their count is `N − M` (stated additively: deleted + M referenced
prefix-named = N prefix-named) — records no failures, and every deleted
index is prefix-named and unreferenced, so referenced and non-prefixed
indexes are untouched.  With an owner filter set the claim fails: the
diff only sees the *caller's* rows, so prefix-named indexes referenced
by other users' databases are deleted too — see
`c8_owner_filter_counterexample`. -/
theorem c8_cleanup_reclaims_orphans (azureIndexes : List String)
    (rows : List VdbRow) (deleteOk : String → Bool)
    (hdel : ∀ n, deleteOk n = true) :
    (cleanupUnusedIndexes azureIndexes rows none deleteOk).deleted =
      (azureIndexes.filter
          (fun n => n ∉ rows.map VdbRow.azureIndexName)).filter
        (fun n => ragPrefixed n) ∧
    (cleanupUnusedIndexes azureIndexes rows none deleteOk).deletedCount +
      (azureIndexes.filter (fun n => ragPrefixed n &&
        decide (n ∈ rows.map VdbRow.azureIndexName))).length =
      (azureIndexes.filter (fun n => ragPrefixed n)).length ∧
    (cleanupUnusedIndexes azureIndexes rows none deleteOk).failedDeletions
      = [] ∧
    (∀ n ∈ (cleanupUnusedIndexes azureIndexes rows none deleteOk).deleted,
      ragPrefixed n ∧ n ∉ rows.map VdbRow.azureIndexName) := by
  have hself : ∀ l : List String, l.filter (fun n => deleteOk n) = l :=
    fun l => List.filter_eq_self.mpr (fun a _ => hdel a)
  refine ⟨?_, ?_, ?_, ?_⟩
  · simp only [cleanupUnusedIndexes]
    exact hself _
  · simp only [cleanupUnusedIndexes, hself]
    exact cleanup_count_split azureIndexes (rows.map VdbRow.azureIndexName)
  · simp only [cleanupUnusedIndexes]
    rw [List.filter_eq_nil_iff]
    intro a _
    simp [hdel a]
  · intro n hn
    simp only [cleanupUnusedIndexes, hself] at hn
    have h1 := List.mem_filter.mp hn
    have h2 := List.mem_filter.mp h1.1
    refine ⟨h1.2, ?_⟩
    simpa using h2.2

/-- Witness for C8: three backend indexes, one referenced — the two
prefix-named orphans are deleted (`N − M = 2 − 1`, plus the non-prefixed
stranger is spared). -/
theorem c8_cleanup_reclaims_orphans_witness :
    (cleanupUnusedIndexes ["usyd-rag-a", "usyd-rag-b", "other"]
        [⟨1, "usyd-rag-a"⟩] none (fun _ => true)).deleted = ["usyd-rag-b"] ∧
    (cleanupUnusedIndexes ["usyd-rag-a", "usyd-rag-b", "other"]
        [⟨1, "usyd-rag-a"⟩] none (fun _ => true)).deletedCount + 1 = 2 :=
  ⟨((c8_cleanup_reclaims_orphans ["usyd-rag-a", "usyd-rag-b", "other"]
      [⟨1, "usyd-rag-a"⟩] (fun _ => true) (fun _ => rfl)).1).trans
    (by decide),
   by
    have h := (c8_cleanup_reclaims_orphans ["usyd-rag-a", "usyd-rag-b",
      "other"] [⟨1, "usyd-rag-a"⟩] (fun _ => true) (fun _ => rfl)).2.1
    rw [show (["usyd-rag-a", "usyd-rag-b", "other"].filter
      (fun n => ragPrefixed n && decide (n ∈ ([⟨1, "usyd-rag-a"⟩] :
        List VdbRow).map VdbRow.azureIndexName))).length = 1 by decide,
      show (["usyd-rag-a", "usyd-rag-b", "other"].filter
        (fun n => ragPrefixed n)).length = 2 by decide] at h
    exact h⟩

/-- Claim C8, counterexample for the owner filter: with
`user_id = 1`, the prefix-named index `usyd-rag-a` *is referenced* by a
`vector_databases` row (user 2's), yet the cleanup deletes it, because
the diff only consults user 1's rows.  The claim required the M
referenced indexes to be left untouched for every filter value. -/
theorem c8_owner_filter_counterexample :
    (cleanupUnusedIndexes ["usyd-rag-a"] [⟨2, "usyd-rag-a"⟩] (some 1)
        (fun _ => true)).deleted = ["usyd-rag-a"] ∧
    "usyd-rag-a" ∈ ([⟨2, "usyd-rag-a"⟩] : List VdbRow).map
      VdbRow.azureIndexName :=
  ⟨by decide, by decide⟩

/-- Claim C9 (amended): when the referenced database does not exist, is
not owned by the caller, or is not `ready`, the body of `search` raises
"Vector database not found or not ready" — but the function's catch-all
`except` swallows the exception and returns `[]`, so the caller
receives an empty result list indistinguishable from an empty-success
result instead of the error the claim promises. -/
theorem c9_search_auth_swallowed {V : Type} (dbs : List VdbRecord)
    (backend : Option String → Option V → Nat → List SearchHit)
    (embedQ : String → Option V) (dbId : String) (userId : Nat)
    (query searchType : String) (topK : Nat)
    (h : ∀ r ∈ dbs, ¬(r.id = dbId ∧ r.userId = userId ∧
      r.status = "ready")) :
    searchInner dbs backend embedQ dbId userId query searchType topK =
      .error "Vector database not found or not ready" ∧
    search dbs backend embedQ dbId userId query searchType topK = [] := by
  have hf : dbs.find? (fun r => r.id = dbId ∧ r.userId = userId ∧
      r.status = "ready") = none := by
    rw [List.find?_eq_none]
    intro r hr
    simpa using h r hr
  constructor
  · simp only [searchInner]
    rw [hf]
  · simp only [search, searchInner]
    rw [hf]

/-- Witness for C9: the only database row belongs to user 2 and is not
`ready`; user 1's search errors internally and returns `[]`. -/
theorem c9_search_auth_swallowed_witness :
    searchInner (V := Nat) [⟨"db", 2, "building", "idx"⟩]
        (fun _ _ _ => [⟨"c", "t", "u", 1⟩]) (fun _ => some 0)
        "db" 1 "q" "semantic" 5 =
      .error "Vector database not found or not ready" ∧
    search (V := Nat) [⟨"db", 2, "building", "idx"⟩]
        (fun _ _ _ => [⟨"c", "t", "u", 1⟩]) (fun _ => some 0)
        "db" 1 "q" "semantic" 5 = [] :=
  c9_search_auth_swallowed [⟨"db", 2, "building", "idx"⟩]
    (fun _ _ _ => [⟨"c", "t", "u", 1⟩]) (fun _ => some 0)
    "db" 1 "q" "semantic" 5 (by decide)

/-- Claim C9, counterexample: searching a nonexistent database returns
the plain empty list — a successful-looking empty result set, not a
surfaced error (the raised "not found or not ready" never reaches the
caller). -/
theorem c9_search_counterexample :
    search (V := Nat) [] (fun _ _ _ => [⟨"c", "t", "u", 1⟩])
        (fun _ => some 0) "db" 1 "q" "semantic" 5 = [] ∧
    searchInner (V := Nat) [] (fun _ _ _ => [⟨"c", "t", "u", 1⟩])
        (fun _ => some 0) "db" 1 "q" "semantic" 5 =
      .error "Vector database not found or not ready" :=
  ⟨rfl, rfl⟩

/-- Claim C10: a search on a ready, owned database with a `search_type`
that is none of `keyword`, `semantic`, `hybrid` falls through every
branch and returns the empty list without raising, so callers cannot
tell an unknown search mode from a query with no matches. -/
theorem c10_unknown_search_type {V : Type} (dbs : List VdbRecord)
    (backend : Option String → Option V → Nat → List SearchHit)
    (embedQ : String → Option V) (dbId : String) (userId : Nat)
    (query searchType : String) (topK : Nat)
    (hfound : (dbs.find? (fun r => r.id = dbId ∧ r.userId = userId ∧
      r.status = "ready")).isSome)
    (h1 : searchType ≠ "semantic") (h2 : searchType ≠ "hybrid")
    (h3 : searchType ≠ "keyword") :
    searchInner dbs backend embedQ dbId userId query searchType topK =
      .ok [] ∧
    search dbs backend embedQ dbId userId query searchType topK = [] := by
  obtain ⟨r, hr⟩ := Option.isSome_iff_exists.mp hfound
  have hor : ¬(searchType = "semantic" ∨ searchType = "hybrid") := by
    push_neg
    exact ⟨h1, h2⟩
  constructor
  · simp only [searchInner]
    rw [hr]
    rw [if_neg hor, if_neg h3]
  · simp only [search, searchInner]
    rw [hr]
    rw [if_neg hor, if_neg h3]

/-- Witness for C10: search type `"fuzzy"` on a ready owned database
returns `[]` without error, even though the backend would have returned
a hit for any supported mode. -/
theorem c10_unknown_search_type_witness :
    searchInner (V := Nat) [⟨"db", 1, "ready", "idx"⟩]
        (fun _ _ _ => [⟨"c", "t", "u", 1⟩]) (fun _ => some 0)
        "db" 1 "q" "fuzzy" 5 = .ok [] ∧
    search (V := Nat) [⟨"db", 1, "ready", "idx"⟩]
        (fun _ _ _ => [⟨"c", "t", "u", 1⟩]) (fun _ => some 0)
        "db" 1 "q" "fuzzy" 5 = [] :=
  c10_unknown_search_type [⟨"db", 1, "ready", "idx"⟩]
    (fun _ _ _ => [⟨"c", "t", "u", 1⟩]) (fun _ => some 0)
    "db" 1 "q" "fuzzy" 5 (by decide) (by decide) (by decide) (by decide)

end USYDRag
